import Mathlib

/-!
Verification of the apeye credential manager against its specification.

The repository is a browser credential manager: secret values (API keys,
passwords) are encrypted client-side before persistence, and decrypted on
demand for reveal/copy.  This file embeds the relevant program logic:

* the field encryption utility (`src/lib/encryption.ts`; its source is not
  part of the provided tree, so it is modelled from the specification's
  contract, see `Apeye.encrypt` and `Apeye.decrypt`);
* the reveal/copy state machine shared by `ApiKeysTable`, `MainDashboard`
  and `WebsitePage` (`toggleVisibility`, `copyToClipboard`);
* the mass-add submission handler (`MassAddModal.handleSubmit`);
* the delete handler with its confirmation gate (`handleDelete`), over a
  model of the owner-scoped persistence layer.
-/

set_option autoImplicit false

namespace Apeye

/-! ### Field encryption utility (spec §4.1)

Modelled from the spec: the file `src/lib/encryption.ts` that exports
`encrypt` and `decrypt` is not present under `src/`; only its callers are.
The spec fixes a contract, not an algorithm: `encrypt` may embed a nonce
and need not be deterministic across calls; `decrypt` fails with a
`DecryptionError` when the ciphertext is malformed or was produced with a
different key, and `decrypt ∘ encrypt` is the identity.  The model below
realises this contract with an explicit key instance and nonce: a
ciphertext frames the key identity, the nonce and the payload, and
`decrypt` rejects a ciphertext whose framing does not parse or whose key
identity differs from its own. -/

/-- Error raised by `decrypt` (spec §7): the ciphertext is malformed, or it
was produced with a different key instance. -/
inductive DecryptionError where
  | malformed
  | wrongKey
deriving DecidableEq

/-- Modelled from the spec: a process-wide cryptographic key instance,
identified by its key identity.  Two key instances differ exactly when
their `keyId`s differ. -/
structure EncKey where
  keyId : Nat
deriving DecidableEq

/-- Ciphertext framing: the key identity in unary (`'k'` repeated, closed
by `'K'`), then the nonce in unary (`'n'` repeated, closed by `'N'`), then
the payload characters. -/
def encodeCipher (kid nonce : Nat) (payload : List Char) : List Char :=
  List.replicate kid 'k' ++ 'K' :: (List.replicate nonce 'n' ++ 'N' :: payload)

/-- Parse the ciphertext framing back into key identity, nonce and
payload; `none` on a malformed ciphertext. -/
def decodeCipher (cs : List Char) : Option (Nat × Nat × List Char) :=
  match cs.dropWhile (fun c => c == 'k') with
  | 'K' :: rest =>
    match rest.dropWhile (fun c => c == 'n') with
    | 'N' :: payload =>
      some ((cs.takeWhile (fun c => c == 'k')).length,
            (rest.takeWhile (fun c => c == 'n')).length, payload)
    | _ => none
  | _ => none

/-- Modelled from the spec: `encrypt(plaintext: string) → ciphertext:
string`.  The nonce argument models the permitted non-determinism across
calls. -/
def encrypt (k : EncKey) (nonce : Nat) (s : String) : String :=
  ⟨encodeCipher k.keyId nonce s.data⟩

/-- Modelled from the spec: `decrypt(ciphertext: string) → plaintext:
string`, failing with a `DecryptionError` on a malformed ciphertext or a
key-identity mismatch. -/
def decrypt (k : EncKey) (c : String) : Except DecryptionError String :=
  match decodeCipher c.data with
  | some (kid, _, payload) =>
    if kid = k.keyId then .ok ⟨payload⟩ else .error .wrongKey
  | none => .error .malformed

theorem takeWhile_replicate_append (a b : Char) (h : (b == a) = false) :
    ∀ (m : Nat) (t : List Char),
      (List.replicate m a ++ b :: t).takeWhile (fun c => c == a)
        = List.replicate m a := by
  intro m t
  induction m with
  | zero => simp [List.takeWhile_cons, h]
  | succ m ih => simp [List.replicate_succ, List.takeWhile_cons, ih]

theorem dropWhile_replicate_append (a b : Char) (h : (b == a) = false) :
    ∀ (m : Nat) (t : List Char),
      (List.replicate m a ++ b :: t).dropWhile (fun c => c == a)
        = b :: t := by
  intro m t
  induction m with
  | zero => simp [List.dropWhile_cons, h]
  | succ m ih => simp [List.replicate_succ, List.dropWhile_cons, ih]

theorem decodeCipher_encodeCipher (kid nonce : Nat) (p : List Char) :
    decodeCipher (encodeCipher kid nonce p) = some (kid, nonce, p) := by
  have hK : ('K' == 'k') = false := by decide
  have hN : ('N' == 'n') = false := by decide
  simp [decodeCipher, encodeCipher,
    takeWhile_replicate_append _ _ hK, dropWhile_replicate_append _ _ hK,
    takeWhile_replicate_append _ _ hN, dropWhile_replicate_append _ _ hN]

/-- The ciphertext always contains the two framing markers, hence is never
the empty string.  (This matters because the code uses the empty string as
the "no password stored" sentinel.) -/
theorem encrypt_ne_empty (k : EncKey) (nonce : Nat) (s : String) :
    encrypt k nonce s ≠ "" := by
  intro h
  have hd : encodeCipher k.keyId nonce s.data = [] := congrArg String.data h
  simp [encodeCipher] at hd

/-- C1: for every plaintext string `s`, and every nonce the
non-deterministic `encrypt` may have embedded, decrypting with the same
key instance returns exactly `s`: `decrypt (encrypt s) = s`. -/
theorem decrypt_encrypt_roundtrip (k : EncKey) (nonce : Nat) (s : String) :
    decrypt k (encrypt k nonce s) = .ok s := by
  simp [decrypt, encrypt, decodeCipher_encodeCipher]

/-- C6: decrypting a ciphertext produced under a different key instance
fails with a `DecryptionError` (never silently returns a plaintext), and
decrypting a malformed ciphertext (one whose framing does not parse) also
fails with a `DecryptionError`. -/
theorem decrypt_wrong_key_or_malformed :
    (∀ (k k' : EncKey) (nonce : Nat) (s : String), k.keyId ≠ k'.keyId →
      decrypt k' (encrypt k nonce s) = .error .wrongKey) ∧
    (∀ (k : EncKey) (c : String), decodeCipher c.data = none →
      decrypt k c = .error .malformed) := by
  constructor
  · intro k k' nonce s hne
    simp [decrypt, decodeCipher_encodeCipher, encrypt]
    intro h
    exact hne h
  · intro k c hmal
    simp [decrypt, hmal]

/-- Witness for C6 at concrete inputs: key instance 1 rejects a ciphertext
produced by key instance 0, and the string `"garbage"` is rejected as
malformed. -/
theorem decrypt_wrong_key_or_malformed_witness :
    decrypt ⟨1⟩ (encrypt ⟨0⟩ 5 "secret") = .error .wrongKey ∧
    decrypt ⟨0⟩ "garbage" = .error .malformed :=
  ⟨decrypt_wrong_key_or_malformed.1 ⟨0⟩ ⟨1⟩ 5 "secret" (by decide),
   decrypt_wrong_key_or_malformed.2 ⟨0⟩ "garbage" (by decide)⟩

/-! ### Reveal/copy state machine (spec §4.2)

`ApiKeysTable` (part_000), `MainDashboard` (part_003) and `WebsitePage`
(part_004) each hold the same four pieces of React state and the same
`toggleVisibility`/`copyToClipboard` handlers, embedded once below.
JavaScript `Set<string>` values are lists of distinct strings, the
`Map<string, {key, password}>` cache is an association list, and each
handler returns, besides the successor state, the observable effects of
the call: how many times `decrypt` was invoked, what was written to the
clipboard, and the delay of the scheduled indicator reset. -/

/-- One cache entry of `decryptedData`: the decrypted API key and the
decrypted password of a record (`''` when not yet decrypted). -/
structure DecEntry where
  key : String
  password : String
deriving DecidableEq

/-- Which secret field of a record a handler acts on: `'key' | 'password'`. -/
inductive SecretField where
  | key
  | password
deriving DecidableEq

/-- Component state shared by the three table components: the two
visibility sets, the per-record decrypted cache, and the copy indicator. -/
structure TableState where
  visibleKeys : List String
  visiblePasswords : List String
  decryptedData : List (String × DecEntry)
  copiedId : Option String
deriving DecidableEq

/-- `decryptedData.get(id)` on the association-list model of the map. -/
def findEntry : List (String × DecEntry) → String → Option DecEntry
  | [], _ => none
  | (k, v) :: rest, id => if k = id then some v else findEntry rest id

/-- `decryptedData.set(id, v)`: the JavaScript map replaces any previous
binding of `id`. -/
def setEntry (m : List (String × DecEntry)) (id : String) (v : DecEntry) :
    List (String × DecEntry) :=
  (id, v) :: m.filter (fun p => p.1 != id)

/-- `newSet.delete(id)` on the list model of a `Set<string>`. -/
def setDelete (l : List String) (id : String) : List String :=
  l.filter (fun x => x != id)

/-- The visibility set the handler selects for a field
(`isKey ? visibleKeys : visiblePasswords`). -/
def visibleSet (s : TableState) : SecretField → List String
  | .key => s.visibleKeys
  | .password => s.visiblePasswords

/-- Store back the selected visibility set (`setVisibleKeys` /
`setVisiblePasswords`). -/
def withVisibleSet (s : TableState) : SecretField → List String → TableState
  | .key, l => { s with visibleKeys := l }
  | .password, l => { s with visiblePasswords := l }

/-- Result of one `toggleVisibility` call: the component state when the
async handler finishes (unchanged when `decrypt` rejected, since every
state update follows the `await`), the number of `decrypt` invocations,
and the error a rejected `decrypt` escaped with. -/
structure ToggleOutcome where
  state : TableState
  decryptCalls : Nat
  err : Option DecryptionError
deriving DecidableEq

/-- `toggleVisibility(id, field, encrypted)` of the table components,
parametrised by the ambient `decrypt` of `../lib/encryption` (an oracle
`dec`).  Note the cache guard is `!decryptedData.has(id)` — presence of
the record in the map, not of the particular field's value. -/
def toggleVisibility (dec : String → Except DecryptionError String)
    (s : TableState) (id : String) (field : SecretField)
    (encrypted : String) : ToggleOutcome :=
  let vs := visibleSet s field
  if id ∈ vs then
    ⟨withVisibleSet s field (setDelete vs id), 0, none⟩
  else if (findEntry s.decryptedData id).isSome then
    ⟨withVisibleSet s field (id :: vs), 0, none⟩
  else
    match dec encrypted with
    | .error e => ⟨s, 1, some e⟩
    | .ok d =>
      let current := (findEntry s.decryptedData id).getD ⟨"", ""⟩
      let entry :=
        match field with
        | .key => { current with key := d }
        | .password => { current with password := d }
      let s1 := { s with decryptedData := setEntry s.decryptedData id entry }
      ⟨withVisibleSet s1 field (id :: vs), 1, none⟩

/-- Masked placeholder shown for a hidden or not-yet-decrypted password. -/
def maskSecret : String := "••••••••"

/-- Masked placeholder `MainDashboard` shows for a hidden API key. -/
def maskApiKeyHidden : String := "sk-*********************"

/-- Fallback `MainDashboard` shows for a revealed API key whose cached
value is missing or empty (JavaScript `|| 'sk-***'`). -/
def maskApiKeyFallback : String := "sk-***"

/-- The API key cell of `MainDashboard`: the decrypted value when the
record is in `visibleKeys` and a non-empty cached value exists, otherwise
the fallback; the masked placeholder when hidden. -/
def displayedApiKey (s : TableState) (id : String) : String :=
  if id ∈ s.visibleKeys then
    match findEntry s.decryptedData id with
    | some e => if e.key = "" then maskApiKeyFallback else e.key
    | none => maskApiKeyFallback
  else maskApiKeyHidden

/-- The password cell of `MainDashboard` (for a record with a stored
encrypted password). -/
def displayedPassword (s : TableState) (id : String) : String :=
  if id ∈ s.visiblePasswords then
    match findEntry s.decryptedData id with
    | some e => if e.password = "" then maskSecret else e.password
    | none => maskSecret
  else maskSecret

/-- The displayed text of a record's secret cell, by field. -/
def displayedField (s : TableState) (id : String) : SecretField → String
  | .key => displayedApiKey s id
  | .password => displayedPassword s id

/-- Result of one `copyToClipboard` call: the component state when the
async handler finishes, the texts written to the system clipboard, the
delay in milliseconds of the scheduled indicator reset (if any), the
number of `decrypt` invocations, and the error a rejected `decrypt`
escaped with. -/
structure CopyOutcome where
  state : TableState
  clipboardWrites : List String
  timeoutDelayMs : Option Nat
  decryptCalls : Nat
  err : Option DecryptionError
deriving DecidableEq

/-- `copyToClipboard(text, id)` of the table components: always decrypts
the ciphertext argument, writes the result to the clipboard, sets the
copy indicator and schedules its reset after 2000 ms. -/
def copyToClipboard (dec : String → Except DecryptionError String)
    (s : TableState) (text : String) (cid : String) : CopyOutcome :=
  match dec text with
  | .error e => ⟨s, [], none, 1, some e⟩
  | .ok d => ⟨{ s with copiedId := some cid }, [d], some 2000, 1, none⟩

/-- The `setTimeout` callback `() => setCopiedId(null)`. -/
def clearCopied (s : TableState) : TableState :=
  { s with copiedId := none }

theorem filter_ne_of_not_mem (l : List String) (id : String) (h : id ∉ l) :
    l.filter (fun x => x != id) = l := by
  induction l with
  | nil => rfl
  | cons a t ih =>
    simp only [List.mem_cons, not_or] at h
    simp [List.filter_cons, bne_iff_ne, Ne.symm h.1, ih h.2]

theorem visibleSet_withVisibleSet (s : TableState) (f : SecretField)
    (l : List String) : visibleSet (withVisibleSet s f l) f = l := by
  cases f <;> rfl

theorem decryptedData_withVisibleSet (s : TableState) (f : SecretField)
    (l : List String) : (withVisibleSet s f l).decryptedData = s.decryptedData := by
  cases f <;> rfl

theorem withVisibleSet_withVisibleSet (s : TableState) (f : SecretField)
    (l l' : List String) :
    withVisibleSet (withVisibleSet s f l) f l' = withVisibleSet s f l' := by
  cases f <;> rfl

theorem findEntry_setEntry (m : List (String × DecEntry)) (id : String)
    (v : DecEntry) : findEntry (setEntry m id v) id = some v := by
  simp [setEntry, findEntry]

theorem setDelete_cons_self (l : List String) (id : String) :
    setDelete (id :: l) id = setDelete l id := by
  simp [setDelete, List.filter_cons]

/-- The cache entry written by a first reveal of `field` when the record
had no cache entry: the decrypted value in the toggled field, `''` in the
other (`{ ...currentData, [field]: decrypted }` over the default). -/
def freshEntry (f : SecretField) (p : String) : DecEntry :=
  match f with
  | .key => ⟨p, ""⟩
  | .password => ⟨"", p⟩

/-- Component state after a first reveal of `(id, f)` from a state with no
cache entry for `id`: the decrypted value is cached and `id` joins the
field's visibility set. -/
def revealState (s : TableState) (id : String) (f : SecretField)
    (p : String) : TableState :=
  withVisibleSet { s with decryptedData := setEntry s.decryptedData id (freshEntry f p) }
    f (id :: visibleSet s f)

theorem toggle_first_reveal (dec : String → Except DecryptionError String)
    (s : TableState) (id : String) (f : SecretField) (enc p : String)
    (hv : id ∉ visibleSet s f)
    (hc : findEntry s.decryptedData id = none)
    (hd : dec enc = .ok p) :
    toggleVisibility dec s id f enc = ⟨revealState s id f p, 1, none⟩ := by
  cases f <;> simp [toggleVisibility, revealState, freshEntry, hv, hc, hd]

theorem toggle_hide (dec : String → Except DecryptionError String)
    (s : TableState) (id : String) (f : SecretField) (enc : String)
    (hv : id ∈ visibleSet s f) :
    toggleVisibility dec s id f enc
      = ⟨withVisibleSet s f (setDelete (visibleSet s f) id), 0, none⟩ := by
  simp [toggleVisibility, hv]

theorem toggle_cache_hit (dec : String → Except DecryptionError String)
    (s : TableState) (id : String) (f : SecretField) (enc : String)
    (hv : id ∉ visibleSet s f)
    (hc : (findEntry s.decryptedData id).isSome = true) :
    toggleVisibility dec s id f enc
      = ⟨withVisibleSet s f (id :: visibleSet s f), 0, none⟩ := by
  simp [toggleVisibility, hv, hc]

/-- C3: from a Hidden `(id, f)` with no cached value, the toggle sequence
Hidden→Revealed→Hidden→Revealed decrypts exactly once, on the first
reveal, which caches the plaintext; the hide step rewrites only the
field's visibility set and retains the cache; the second reveal performs
no decrypt call (cache hit) and restores exactly the first revealed state,
so both reveals display the same plaintext. -/
theorem toggle_reveal_hide_reveal (dec : String → Except DecryptionError String)
    (s : TableState) (id : String) (f : SecretField) (enc p : String)
    (hv : id ∉ visibleSet s f)
    (hc : findEntry s.decryptedData id = none)
    (hd : dec enc = .ok p) :
    toggleVisibility dec s id f enc = ⟨revealState s id f p, 1, none⟩ ∧
    toggleVisibility dec (revealState s id f p) id f enc
      = ⟨withVisibleSet (revealState s id f p) f
            (setDelete (visibleSet (revealState s id f p) f) id), 0, none⟩ ∧
    (withVisibleSet (revealState s id f p) f
        (setDelete (visibleSet (revealState s id f p) f) id)).decryptedData
      = (revealState s id f p).decryptedData ∧
    toggleVisibility dec
        (withVisibleSet (revealState s id f p) f
          (setDelete (visibleSet (revealState s id f p) f) id)) id f enc
      = ⟨revealState s id f p, 0, none⟩ ∧
    displayedField
        (toggleVisibility dec
          (withVisibleSet (revealState s id f p) f
            (setDelete (visibleSet (revealState s id f p) f) id)) id f enc).state
        id f
      = displayedField (revealState s id f p) id f := by
  have h1 := toggle_first_reveal dec s id f enc p hv hc hd
  have hvs1 : visibleSet (revealState s id f p) f = id :: visibleSet s f := by
    simp [revealState, visibleSet_withVisibleSet]
  have hmem : id ∈ visibleSet (revealState s id f p) f := by
    rw [hvs1]; exact List.mem_cons_self id _
  have h2 := toggle_hide dec (revealState s id f p) id f enc hmem
  have hdel : setDelete (visibleSet (revealState s id f p) f) id = visibleSet s f := by
    rw [hvs1, setDelete_cons_self, setDelete, filter_ne_of_not_mem _ _ hv]
  have hdata : (withVisibleSet (revealState s id f p) f
      (setDelete (visibleSet (revealState s id f p) f) id)).decryptedData
      = (revealState s id f p).decryptedData := by
    rw [decryptedData_withVisibleSet]
  have hdata1 : (revealState s id f p).decryptedData
      = setEntry s.decryptedData id (freshEntry f p) := by
    simp [revealState, decryptedData_withVisibleSet]
  have hvnot : id ∉ visibleSet (withVisibleSet (revealState s id f p) f
      (setDelete (visibleSet (revealState s id f p) f) id)) f := by
    rw [visibleSet_withVisibleSet, hdel]; exact hv
  have hhit : (findEntry (withVisibleSet (revealState s id f p) f
      (setDelete (visibleSet (revealState s id f p) f) id)).decryptedData
      id).isSome = true := by
    rw [hdata, hdata1, findEntry_setEntry]; rfl
  have h3 := toggle_cache_hit dec _ id f enc hvnot hhit
  have hstate3 : withVisibleSet (withVisibleSet (revealState s id f p) f
        (setDelete (visibleSet (revealState s id f p) f) id)) f
        (id :: visibleSet (withVisibleSet (revealState s id f p) f
          (setDelete (visibleSet (revealState s id f p) f) id)) f)
      = revealState s id f p := by
    rw [withVisibleSet_withVisibleSet, visibleSet_withVisibleSet, hdel,
      revealState, withVisibleSet_withVisibleSet]
  refine ⟨h1, h2, hdata, ?_, ?_⟩
  · rw [h3, hstate3]
  · rw [h3, hstate3]

/-- Witness for C3 at a concrete input: record `"a"`, API key field, key
instance 0, ciphertext of `"sk-p"`, starting from the empty component
state. -/
theorem toggle_reveal_hide_reveal_witness :
    toggleVisibility (decrypt ⟨0⟩) ⟨[], [], [], none⟩ "a" .key
        (encrypt ⟨0⟩ 0 "sk-p")
      = ⟨revealState ⟨[], [], [], none⟩ "a" .key "sk-p", 1, none⟩ ∧
    toggleVisibility (decrypt ⟨0⟩)
        (revealState ⟨[], [], [], none⟩ "a" .key "sk-p") "a" .key
        (encrypt ⟨0⟩ 0 "sk-p")
      = ⟨withVisibleSet (revealState ⟨[], [], [], none⟩ "a" .key "sk-p") .key
            (setDelete (visibleSet
              (revealState ⟨[], [], [], none⟩ "a" .key "sk-p") .key) "a"),
          0, none⟩ ∧
    (withVisibleSet (revealState ⟨[], [], [], none⟩ "a" .key "sk-p") .key
        (setDelete (visibleSet
          (revealState ⟨[], [], [], none⟩ "a" .key "sk-p") .key) "a")).decryptedData
      = (revealState ⟨[], [], [], none⟩ "a" .key "sk-p").decryptedData ∧
    toggleVisibility (decrypt ⟨0⟩)
        (withVisibleSet (revealState ⟨[], [], [], none⟩ "a" .key "sk-p") .key
          (setDelete (visibleSet
            (revealState ⟨[], [], [], none⟩ "a" .key "sk-p") .key) "a")) "a" .key
        (encrypt ⟨0⟩ 0 "sk-p")
      = ⟨revealState ⟨[], [], [], none⟩ "a" .key "sk-p", 0, none⟩ ∧
    displayedField
        (toggleVisibility (decrypt ⟨0⟩)
          (withVisibleSet (revealState ⟨[], [], [], none⟩ "a" .key "sk-p") .key
            (setDelete (visibleSet
              (revealState ⟨[], [], [], none⟩ "a" .key "sk-p") .key) "a")) "a" .key
          (encrypt ⟨0⟩ 0 "sk-p")).state "a" .key
      = displayedField (revealState ⟨[], [], [], none⟩ "a" .key "sk-p") "a" .key :=
  toggle_reveal_hide_reveal (decrypt ⟨0⟩) ⟨[], [], [], none⟩ "a" .key
    (encrypt ⟨0⟩ 0 "sk-p") "sk-p" (by decide) (by decide) rfl

/-- Component state after the API key of record `"r1"` has been revealed:
`"r1"` is in `visibleKeys` and the cache maps `"r1"` to its decrypted key
with the password slot still `''`. -/
def bugState : TableState :=
  ⟨["r1"], [], [("r1", ⟨"sk-abc", ""⟩)], none⟩

/-- C4 (failing input): in `bugState` the pair `("r1", password)` is
Hidden and has no cached password value, yet toggling it to Revealed
performs no decrypt call — the guard `!decryptedData.has(id)` tests the
record, not the field — and the "revealed" password cell still shows the
masked placeholder instead of the plaintext. -/
theorem toggle_password_skips_decrypt_bug :
    (findEntry bugState.decryptedData "r1").map DecEntry.password = some "" ∧
    "r1" ∉ bugState.visiblePasswords ∧
    (toggleVisibility (decrypt ⟨0⟩) bugState "r1" .password
        (encrypt ⟨0⟩ 1 "hunter2")).decryptCalls = 0 ∧
    "r1" ∈ (toggleVisibility (decrypt ⟨0⟩) bugState "r1" .password
        (encrypt ⟨0⟩ 1 "hunter2")).state.visiblePasswords ∧
    displayedPassword (toggleVisibility (decrypt ⟨0⟩) bugState "r1" .password
        (encrypt ⟨0⟩ 1 "hunter2")).state "r1" = maskSecret := by
  refine ⟨rfl, by decide, rfl, by decide, rfl⟩

/-- C10: when `decrypt` rejects inside `copyToClipboard`, nothing is
written to the system clipboard, no indicator reset is scheduled, and the
component state — `copiedId` included — is unchanged. -/
theorem copy_decrypt_failure (dec : String → Except DecryptionError String)
    (s : TableState) (text cid : String) (e : DecryptionError)
    (h : dec text = .error e) :
    (copyToClipboard dec s text cid).state = s ∧
    (copyToClipboard dec s text cid).clipboardWrites = [] ∧
    (copyToClipboard dec s text cid).timeoutDelayMs = none ∧
    (copyToClipboard dec s text cid).state.copiedId = s.copiedId ∧
    (copyToClipboard dec s text cid).err = some e := by
  simp [copyToClipboard, h]

/-- Witness for C10 at a concrete input: decrypting the malformed string
`"bad"` with key instance 0 fails and leaves the empty component state
untouched. -/
theorem copy_decrypt_failure_witness :
    (copyToClipboard (decrypt ⟨0⟩) ⟨[], [], [], none⟩ "bad" "key-r1").state
      = ⟨[], [], [], none⟩ ∧
    (copyToClipboard (decrypt ⟨0⟩) ⟨[], [], [], none⟩ "bad" "key-r1").clipboardWrites
      = [] ∧
    (copyToClipboard (decrypt ⟨0⟩) ⟨[], [], [], none⟩ "bad" "key-r1").timeoutDelayMs
      = none ∧
    (copyToClipboard (decrypt ⟨0⟩) ⟨[], [], [], none⟩ "bad" "key-r1").state.copiedId
      = (⟨[], [], [], none⟩ : TableState).copiedId ∧
    (copyToClipboard (decrypt ⟨0⟩) ⟨[], [], [], none⟩ "bad" "key-r1").err
      = some .malformed :=
  copy_decrypt_failure (decrypt ⟨0⟩) ⟨[], [], [], none⟩ "bad" "key-r1"
    .malformed rfl

/-- Component state holding a cached decrypted value for record `"id1"`,
as after a reveal of its key. -/
def cachedState : TableState :=
  ⟨["id1"], [], [("id1", ⟨"CACHED", ""⟩)], none⟩

/-- C5 (counterexample): `copyToClipboard` does not obtain the plaintext
from the cache when one is present.  In `cachedState` the cache holds
`"CACHED"` for record `"id1"`, yet copying its ciphertext performs a fresh
decrypt call and writes the decrypted plaintext `"sk-test-123"`, not the
cached value. -/
theorem copy_ignores_cache_cex :
    (findEntry cachedState.decryptedData "id1").map DecEntry.key
      = some "CACHED" ∧
    (copyToClipboard (decrypt ⟨0⟩) cachedState
        (encrypt ⟨0⟩ 0 "sk-test-123") "key-id1").decryptCalls = 1 ∧
    ¬ (copyToClipboard (decrypt ⟨0⟩) cachedState
        (encrypt ⟨0⟩ 0 "sk-test-123") "key-id1").decryptCalls = 0 ∧
    (copyToClipboard (decrypt ⟨0⟩) cachedState
        (encrypt ⟨0⟩ 0 "sk-test-123") "key-id1").clipboardWrites
      = ["sk-test-123"] ∧
    "sk-test-123" ≠ "CACHED" := by
  refine ⟨rfl, rfl, by decide, rfl, by decide⟩

/-- C5 (amended): for every ciphertext `C` decrypting to `p`,
`copyToClipboard` always performs a fresh decrypt call (the cache is not
consulted), writes exactly `p` to the system clipboard, sets the copy
indicator for the requested id, and schedules the indicator reset after a
fixed delay of 2000 milliseconds, whose callback clears it. -/
theorem copy_writes_plaintext (dec : String → Except DecryptionError String)
    (s : TableState) (text cid p : String)
    (h : dec text = .ok p) :
    (copyToClipboard dec s text cid).clipboardWrites = [p] ∧
    (copyToClipboard dec s text cid).state.copiedId = some cid ∧
    (copyToClipboard dec s text cid).timeoutDelayMs = some 2000 ∧
    (copyToClipboard dec s text cid).decryptCalls = 1 ∧
    (clearCopied (copyToClipboard dec s text cid).state).copiedId = none := by
  simp [copyToClipboard, clearCopied, h]

/-- Witness for C5 at the spec's concrete input: a ciphertext of
`"sk-test-123"` under key instance 0 is copied as exactly
`"sk-test-123"`, with the indicator reset scheduled at 2000 ms. -/
theorem copy_writes_plaintext_witness :
    (copyToClipboard (decrypt ⟨0⟩) ⟨[], [], [], none⟩
        (encrypt ⟨0⟩ 7 "sk-test-123") "key-r1").clipboardWrites
      = ["sk-test-123"] ∧
    (copyToClipboard (decrypt ⟨0⟩) ⟨[], [], [], none⟩
        (encrypt ⟨0⟩ 7 "sk-test-123") "key-r1").state.copiedId
      = some "key-r1" ∧
    (copyToClipboard (decrypt ⟨0⟩) ⟨[], [], [], none⟩
        (encrypt ⟨0⟩ 7 "sk-test-123") "key-r1").timeoutDelayMs
      = some 2000 ∧
    (copyToClipboard (decrypt ⟨0⟩) ⟨[], [], [], none⟩
        (encrypt ⟨0⟩ 7 "sk-test-123") "key-r1").decryptCalls = 1 ∧
    (clearCopied (copyToClipboard (decrypt ⟨0⟩) ⟨[], [], [], none⟩
        (encrypt ⟨0⟩ 7 "sk-test-123") "key-r1").state).copiedId = none :=
  copy_writes_plaintext (decrypt ⟨0⟩) ⟨[], [], [], none⟩
    (encrypt ⟨0⟩ 7 "sk-test-123") "key-r1" "sk-test-123" rfl

/-! ### Mass-add submission (`MassAddModal.handleSubmit`)

The handler filters the form rows to those whose API key is non-blank
after trimming (JavaScript truthiness of `row.api_key.trim()`), encrypts
each kept row's secrets, and inserts the resulting payload; if no row
survives the filter it sets an error message and inserts nothing.  The
ambient `encrypt` of `../lib/encryption` is an oracle `enc` — one realised
sequence of its (possibly nonce-dependent) outputs. -/

/-- JavaScript `String.prototype.trim`: strip leading and trailing
whitespace. -/
def trimString (s : String) : String :=
  ⟨((s.data.dropWhile Char.isWhitespace).reverse.dropWhile Char.isWhitespace).reverse⟩

/-- One editable row of the mass-add form (`interface ApiKeyRow`). -/
structure ApiKeyRow where
  id : String
  email_username : String
  password : String
  api_key : String
  notes : String
deriving DecidableEq

/-- One row of the insert payload sent to the persistence layer. -/
structure InsertRow where
  user_id : String
  service_name : String
  email_username : String
  encrypted_password : String
  encrypted_api_key : String
  notes : String
  tags : List String
deriving DecidableEq

/-- The row filter `row => row.api_key.trim()`: kept exactly when the API
key is non-blank after trimming. -/
def isValidRow (r : ApiKeyRow) : Bool :=
  trimString r.api_key != ""

/-- `rows.filter(row => row.api_key.trim())`. -/
def validRows (rows : List ApiKeyRow) : List ApiKeyRow :=
  rows.filter isValidRow

/-- The insert-payload row built from one form row: secrets pass through
`encrypt`, an empty password stays the empty-string sentinel
(`row.password ? await encrypt(row.password) : ''`). -/
def encryptRow (enc : String → String) (uid serviceName : String)
    (r : ApiKeyRow) : InsertRow :=
  { user_id := uid
    service_name := serviceName
    email_username := r.email_username
    encrypted_password := if r.password != "" then enc r.password else ""
    encrypted_api_key := enc r.api_key
    notes := r.notes
    tags := [] }

/-- Observable outcome of `handleSubmit`: either an error message was set
(no insert attempted), or an insert was attempted with the given payload. -/
inductive SubmitResult where
  | errorMsg (msg : String)
  | inserted (payload : List InsertRow)
deriving DecidableEq

/-- `MassAddModal.handleSubmit`: require a logged-in user, keep the rows
with a non-blank API key, reject the submission when none remains,
otherwise encrypt and insert them in display order. -/
def handleSubmit (enc : String → String) (user : Option String)
    (serviceName : String) (rows : List ApiKeyRow) : SubmitResult :=
  match user with
  | none => .errorMsg "You must be logged in to add API keys"
  | some uid =>
    if (validRows rows).isEmpty then
      .errorMsg "At least one row must have an API key"
    else
      .inserted ((validRows rows).map (encryptRow enc uid serviceName))

/-- Effect of a submission on the persisted rows: only an attempted insert
changes the store. -/
def applySubmit (store : List InsertRow) (r : SubmitResult) : List InsertRow :=
  match r with
  | .errorMsg _ => store
  | .inserted payload => store ++ payload

theorem isEmpty_false_of_mem {α : Type} (l : List α) (a : α) (h : a ∈ l) :
    l.isEmpty = false := by
  cases l with
  | nil => cases h
  | cons _ _ => rfl

theorem validRows_nil_of_all_invalid (rows : List ApiKeyRow)
    (h : ∀ r ∈ rows, isValidRow r = false) : validRows rows = [] := by
  induction rows with
  | nil => rfl
  | cons a t ih =>
    have ha := h a (List.mem_cons_self a t)
    have ht := ih (fun r hr => h r (List.mem_cons_of_mem a hr))
    simp [validRows, List.filter_cons, ha] at ht ⊢
    exact ht

/-- C2: whenever a mass-add submission attempts an insert, every row of
the insert payload is the encryption of one of the (valid) form rows: its
`encrypted_api_key` is `encrypt` applied to that row's API key and its
`encrypted_password` is `encrypt` applied to that row's password or the
empty-string sentinel — the payload never carries a raw secret field. -/
theorem massAdd_only_ciphertext (enc : String → String) (uid sn : String)
    (rows : List ApiKeyRow) (payload : List InsertRow)
    (h : handleSubmit enc (some uid) sn rows = .inserted payload) :
    ∀ r ∈ payload, ∃ row, row ∈ rows ∧ isValidRow row = true ∧
      r = encryptRow enc uid sn row ∧
      r.encrypted_api_key = enc row.api_key ∧
      (r.encrypted_password = enc row.password ∨ r.encrypted_password = "") := by
  by_cases hemp : (validRows rows).isEmpty
  · simp [handleSubmit, hemp] at h
  · simp only [handleSubmit, hemp, if_false, Bool.false_eq_true] at h
    injection h with h
    intro r hr
    rw [← h] at hr
    obtain ⟨row, hmem, hrow⟩ := List.mem_map.mp hr
    obtain ⟨hmem', hval⟩ := List.mem_filter.mp hmem
    refine ⟨row, hmem', hval, hrow.symm, by rw [← hrow]; rfl, ?_⟩
    by_cases hp : row.password != ""
    · left; rw [← hrow]; simp [encryptRow, hp]
    · right; rw [← hrow]; simp [encryptRow, hp]

/-- Witness for C2 at a concrete input: in a two-row submission (one row
blank) under key instance 0, the single inserted row is ciphertext-only. -/
theorem massAdd_only_ciphertext_witness :
    ∃ row, row ∈ [⟨"1", "e", "pw", "sk-abc", "n"⟩,
        (⟨"2", "", "", "  ", ""⟩ : ApiKeyRow)] ∧ isValidRow row = true ∧
      encryptRow (encrypt ⟨0⟩ 0) "u1" "OpenAI" ⟨"1", "e", "pw", "sk-abc", "n"⟩
        = encryptRow (encrypt ⟨0⟩ 0) "u1" "OpenAI" row ∧
      (encryptRow (encrypt ⟨0⟩ 0) "u1" "OpenAI"
          ⟨"1", "e", "pw", "sk-abc", "n"⟩).encrypted_api_key
        = encrypt ⟨0⟩ 0 row.api_key ∧
      ((encryptRow (encrypt ⟨0⟩ 0) "u1" "OpenAI"
          ⟨"1", "e", "pw", "sk-abc", "n"⟩).encrypted_password
          = encrypt ⟨0⟩ 0 row.password ∨
        (encryptRow (encrypt ⟨0⟩ 0) "u1" "OpenAI"
          ⟨"1", "e", "pw", "sk-abc", "n"⟩).encrypted_password = "") :=
  massAdd_only_ciphertext (encrypt ⟨0⟩ 0) "u1" "OpenAI"
    [⟨"1", "e", "pw", "sk-abc", "n"⟩, ⟨"2", "", "", "  ", ""⟩] _ rfl
    (encryptRow (encrypt ⟨0⟩ 0) "u1" "OpenAI" ⟨"1", "e", "pw", "sk-abc", "n"⟩)
    (by decide)

/-- C9: a mass-add submission with a logged-in user inserts exactly the
rows whose API key is non-blank after trimming, encrypted, in display
order; when every row is blank it attempts no insert, sets the error
message `At least one row must have an API key`, and the persisted rows
are unchanged. -/
theorem massAdd_validation (enc : String → String) (uid sn : String)
    (rows : List ApiKeyRow) :
    ((∃ r ∈ rows, isValidRow r = true) →
      handleSubmit enc (some uid) sn rows
        = .inserted ((rows.filter isValidRow).map (encryptRow enc uid sn))) ∧
    ((∀ r ∈ rows, isValidRow r = false) →
      handleSubmit enc (some uid) sn rows
        = .errorMsg "At least one row must have an API key" ∧
      ∀ store : List InsertRow,
        applySubmit store (handleSubmit enc (some uid) sn rows) = store) := by
  constructor
  · rintro ⟨r, hr, hval⟩
    have hmem : r ∈ validRows rows := List.mem_filter.mpr ⟨hr, hval⟩
    have hemp := isEmpty_false_of_mem _ _ hmem
    exact if_neg (by simp [hemp])
  · intro hall
    have hnil := validRows_nil_of_all_invalid rows hall
    have h : handleSubmit enc (some uid) sn rows
        = .errorMsg "At least one row must have an API key" := by
      simp [handleSubmit, hnil]
    exact ⟨h, fun store => by rw [h]; rfl⟩

/-- Witness for C9 at concrete inputs: a submission with one valid row
inserts exactly its encryption, and a submission whose single row is
blank after trimming sets the error and leaves a concrete store
unchanged. -/
theorem massAdd_validation_witness :
    handleSubmit (encrypt ⟨0⟩ 0) (some "u1") "OpenAI"
        [⟨"1", "e", "pw", "sk-abc", "n"⟩, ⟨"2", "", "", "  ", ""⟩]
      = .inserted (([⟨"1", "e", "pw", "sk-abc", "n"⟩,
          (⟨"2", "", "", "  ", ""⟩ : ApiKeyRow)].filter isValidRow).map
            (encryptRow (encrypt ⟨0⟩ 0) "u1" "OpenAI")) ∧
    (handleSubmit (encrypt ⟨0⟩ 0) (some "u1") "OpenAI" [⟨"3", "", "", " ", ""⟩]
        = .errorMsg "At least one row must have an API key" ∧
      ∀ store : List InsertRow,
        applySubmit store (handleSubmit (encrypt ⟨0⟩ 0) (some "u1") "OpenAI"
          [⟨"3", "", "", " ", ""⟩]) = store) :=
  ⟨(massAdd_validation (encrypt ⟨0⟩ 0) "u1" "OpenAI"
      [⟨"1", "e", "pw", "sk-abc", "n"⟩, ⟨"2", "", "", "  ", ""⟩]).1
      ⟨⟨"1", "e", "pw", "sk-abc", "n"⟩, by decide, by decide⟩,
    (massAdd_validation (encrypt ⟨0⟩ 0) "u1" "OpenAI"
      [⟨"3", "", "", " ", ""⟩]).2 (by decide)⟩

/-- The mass-add form row of the C7 scenario: `api_key = "sk-abc"`, no
password. -/
def openAiRow : ApiKeyRow :=
  ⟨"row1", "user@example.com", "", "sk-abc", ""⟩

/-- C7: mass-adding a row with API key `"sk-abc"` and an empty password
yields an insert of exactly one stored row whose `encrypted_api_key` is
non-empty and whose `encrypted_password` is the empty string; and in any
component state where a record is not in `visibleKeys`, its API key cell
shows the masked placeholder, which is not the plaintext `"sk-abc"`. -/
theorem massAdd_openai_scenario (k : EncKey) (nonce : Nat) (uid id : String)
    (s : TableState) (h : id ∉ s.visibleKeys) :
    (∃ ir : InsertRow,
      handleSubmit (encrypt k nonce) (some uid) "OpenAI" [openAiRow]
        = .inserted [ir] ∧
      ir.encrypted_api_key ≠ "" ∧ ir.encrypted_password = "") ∧
    displayedApiKey s id = maskApiKeyHidden ∧
    maskApiKeyHidden ≠ "sk-abc" := by
  refine ⟨⟨encryptRow (encrypt k nonce) uid "OpenAI" openAiRow, ?_, ?_, rfl⟩,
    ?_, by decide⟩
  · rfl
  · exact encrypt_ne_empty k nonce "sk-abc"
  · simp [displayedApiKey, h]

/-- Witness for C7 at a concrete input: key instance 0, nonce 3, the empty
component state (where every record is hidden). -/
theorem massAdd_openai_scenario_witness :
    (∃ ir : InsertRow,
      handleSubmit (encrypt ⟨0⟩ 3) (some "u1") "OpenAI" [openAiRow]
        = .inserted [ir] ∧
      ir.encrypted_api_key ≠ "" ∧ ir.encrypted_password = "") ∧
    displayedApiKey ⟨[], [], [], none⟩ "r1" = maskApiKeyHidden ∧
    maskApiKeyHidden ≠ "sk-abc" :=
  massAdd_openai_scenario ⟨0⟩ 3 "u1" "r1" ⟨[], [], [], none⟩ (by decide)

/-! ### Delete with confirmation (`handleDelete`)

`MainDashboard`, `WebsitePage` and the legacy `Dashboard` share the same
handler: ask for confirmation, return immediately when declined, delete
the row by id and re-fetch the list on success.  The persistence layer is
the external collaborator of spec §6: rows are owner-scoped automatically,
so a list query returns the owner's rows of the store. -/

/-- One persisted `api_keys` row (`type ApiKey` of `../lib/supabase`). -/
structure ApiKey where
  id : String
  user_id : String
  service_name : String
  email_username : String
  encrypted_password : String
  encrypted_api_key : String
  notes : String
  tags : List String
  created_at : String
  updated_at : String
deriving DecidableEq

/-- Modelled from the spec: the persistence layer's owner-scoped
`select` — a list query returns exactly the rows of the requesting owner
(`src/lib/supabase.ts` is not under `src/`; spec §6 fixes its contract).
The query's ordering clauses do not affect which rows appear. -/
def fetchApiKeys (owner : String) (store : List ApiKey) : List ApiKey :=
  store.filter (fun k => k.user_id == owner)

/-- Modelled from the spec: the persistence layer's `delete(table, id)` —
remove the rows with the given id. -/
def deleteRow (store : List ApiKey) (id : String) : List ApiKey :=
  store.filter (fun k => k.id != id)

/-- Observable outcome of `handleDelete`: the persisted rows, the
component's `apiKeys` state, and whether a delete call was issued. -/
structure DeleteOutcome where
  store : List ApiKey
  apiKeys : List ApiKey
  deleteAttempted : Bool
deriving DecidableEq

/-- `handleDelete(id)`: return unchanged when the confirmation prompt is
declined; otherwise issue the delete and, on success (`deleteOk`),
re-fetch the owner's list into component state. -/
def handleDelete (confirmed deleteOk : Bool) (owner id : String)
    (store comp : List ApiKey) : DeleteOutcome :=
  if !confirmed then
    ⟨store, comp, false⟩
  else if deleteOk then
    ⟨deleteRow store id, fetchApiKeys owner (deleteRow store id), true⟩
  else
    ⟨store, comp, true⟩

/-- C8: a declined confirmation performs no delete call and leaves the
persisted rows and the component state unchanged; a confirmed, successful
delete re-fetches the owner's list, and the deleted record's id appears in
no subsequent list query for that owner. -/
theorem handleDelete_confirmation_gate (deleteOk : Bool) (owner id : String)
    (store comp : List ApiKey) :
    handleDelete false deleteOk owner id store comp = ⟨store, comp, false⟩ ∧
    (handleDelete true true owner id store comp).apiKeys
      = fetchApiKeys owner (handleDelete true true owner id store comp).store ∧
    ∀ k ∈ fetchApiKeys owner (handleDelete true true owner id store comp).store,
      k.id ≠ id := by
  refine ⟨rfl, rfl, ?_⟩
  intro k hk
  have hk' : k ∈ deleteRow store id :=
    (List.mem_filter.mp hk).1
  have := (List.mem_filter.mp hk').2
  simpa [bne_iff_ne] using this

/-- Witness for C8 at a concrete input: a one-row store owned by `"u1"`;
declining leaves everything unchanged, and after a confirmed successful
delete the id is gone from the owner's list query. -/
theorem handleDelete_confirmation_gate_witness :
    handleDelete false true "u1" "k1"
        [⟨"k1", "u1", "OpenAI", "e", "", "c", "", [], "t1", "t2"⟩]
        [⟨"k1", "u1", "OpenAI", "e", "", "c", "", [], "t1", "t2"⟩]
      = ⟨[⟨"k1", "u1", "OpenAI", "e", "", "c", "", [], "t1", "t2"⟩],
          [⟨"k1", "u1", "OpenAI", "e", "", "c", "", [], "t1", "t2"⟩], false⟩ ∧
    (handleDelete true true "u1" "k1"
        [⟨"k1", "u1", "OpenAI", "e", "", "c", "", [], "t1", "t2"⟩]
        [⟨"k1", "u1", "OpenAI", "e", "", "c", "", [], "t1", "t2"⟩]).apiKeys
      = fetchApiKeys "u1" (handleDelete true true "u1" "k1"
          [⟨"k1", "u1", "OpenAI", "e", "", "c", "", [], "t1", "t2"⟩]
          [⟨"k1", "u1", "OpenAI", "e", "", "c", "", [], "t1", "t2"⟩]).store ∧
    ∀ k ∈ fetchApiKeys "u1" (handleDelete true true "u1" "k1"
        [⟨"k1", "u1", "OpenAI", "e", "", "c", "", [], "t1", "t2"⟩]
        [⟨"k1", "u1", "OpenAI", "e", "", "c", "", [], "t1", "t2"⟩]).store,
      k.id ≠ "k1" :=
  handleDelete_confirmation_gate true "u1" "k1"
    [⟨"k1", "u1", "OpenAI", "e", "", "c", "", [], "t1", "t2"⟩]
    [⟨"k1", "u1", "OpenAI", "e", "", "c", "", [], "t1", "t2"⟩]

end Apeye
